import Mathlib

/-!
# Verification of the socsk-rs SOCKS5 proxy core (`src/lib.rs`)

Shallow embedding of the connection-handling pipeline of `src/lib.rs`:
the greeting/method negotiation (`handle_connection`, lines 77-103), the
address decoder (`handle_connection_addr`, lines 105-146), the command
dispatch (`handle_connection_down`, lines 148-180) and the outbound
primitives (`handle_connect_tcp` / `handle_connect_udp`, lines 182-191).

Bytes are modelled as `Nat` (with `< 256` hypotheses where byte-ness
matters).  The client byte stream is a `List Nat`; a `read` into a slice
may deliver fewer bytes than requested (short read), which we model with
an explicit delivery schedule.  The shared 256-byte scratch buffer
(`reader_buffer`, line 78) is modelled explicitly, because the source
re-reads slices of it after short reads.  Network side effects (writes
to the client, the outbound TCP connect, the UDP bind, the start of the
bidirectional relay) are recorded in an event trace.  The outcome of the
single outbound TCP connect of a session is an external parameter.
-/

namespace SocksRs

/-- `const VERSION: Byte = 5` (line 12). -/
def VERSION : Nat := 5

/-- `const ATYP_IPV4: AddressType = 1` (line 15). -/
def ATYP_IPV4 : Nat := 1

/-- `const ATYP_DOMAIN_NAME: AddressType = 3` (line 16). -/
def ATYP_DOMAIN_NAME : Nat := 3

/-- `const ATYP_IPV6: AddressType = 4` (line 17). -/
def ATYP_IPV6 : Nat := 4

/-- `const CMD_CONNECT: CmdType = 1` (line 20). -/
def CMD_CONNECT : Nat := 1

/-- `const CMD_ASSOCIATE: CmdType = 3` (line 21). -/
def CMD_ASSOCIATE : Nat := 3

/-- `const READER_BUFFER_LEN: usize = 256` (line 23). -/
def READER_BUFFER_LEN : Nat := 256

/-! ## `String::from_utf8_lossy`

The source converts raw octets to text with `String::from_utf8_lossy`
(lines 111, 123, 127, 134).  We model it as a function from byte lists
to lists of Unicode code points: valid UTF-8 sequences decode to their
code point, each maximal invalid prefix is replaced by U+FFFD. -/

/-- UTF-8 continuation byte test: `0x80 ≤ b ≤ 0xBF`. -/
def isCont (b : Nat) : Bool := decide (0x80 ≤ b ∧ b ≤ 0xBF)

/-- Admissible first continuation byte of a 3-byte sequence headed by `b`
(RFC 3629 ranges, as enforced by `core::str` validation). -/
def cont3First (b b2 : Nat) : Bool :=
  if b = 0xE0 then decide (0xA0 ≤ b2 ∧ b2 ≤ 0xBF)
  else if b = 0xED then decide (0x80 ≤ b2 ∧ b2 ≤ 0x9F)
  else isCont b2

/-- Admissible first continuation byte of a 4-byte sequence headed by `b`. -/
def cont4First (b b2 : Nat) : Bool :=
  if b = 0xF0 then decide (0x90 ≤ b2 ∧ b2 ≤ 0xBF)
  else if b = 0xF4 then decide (0x80 ≤ b2 ∧ b2 ≤ 0x8F)
  else isCont b2

/-- Decode one code point from byte `b` followed by `rest`; returns the
code point (U+FFFD on error) and the bytes not yet consumed.  Invalid
sequences are skipped following `Utf8Error::error_len`: the maximal
well-formed prefix of the bad sequence is consumed. -/
def utf8Step (b : Nat) (rest : List Nat) : Nat × List Nat :=
  if b < 0x80 then (b, rest)
  else if b < 0xC2 then (0xFFFD, rest)
  else if b ≤ 0xDF then
    match rest with
    | [] => (0xFFFD, [])
    | b2 :: r2 =>
      if isCont b2 then ((b - 0xC0) * 0x40 + (b2 - 0x80), r2)
      else (0xFFFD, b2 :: r2)
  else if b ≤ 0xEF then
    match rest with
    | [] => (0xFFFD, [])
    | b2 :: r2 =>
      if cont3First b b2 then
        match r2 with
        | [] => (0xFFFD, [])
        | b3 :: r3 =>
          if isCont b3 then
            ((b - 0xE0) * 0x1000 + (b2 - 0x80) * 0x40 + (b3 - 0x80), r3)
          else (0xFFFD, b3 :: r3)
      else (0xFFFD, b2 :: r2)
  else if b ≤ 0xF4 then
    match rest with
    | [] => (0xFFFD, [])
    | b2 :: r2 =>
      if cont4First b b2 then
        match r2 with
        | [] => (0xFFFD, [])
        | b3 :: r3 =>
          if isCont b3 then
            match r3 with
            | [] => (0xFFFD, [])
            | b4 :: r4 =>
              if isCont b4 then
                ((b - 0xF0) * 0x40000 + (b2 - 0x80) * 0x1000 +
                  (b3 - 0x80) * 0x40 + (b4 - 0x80), r4)
              else (0xFFFD, b4 :: r4)
          else (0xFFFD, b3 :: r3)
      else (0xFFFD, b2 :: r2)
  else (0xFFFD, rest)

theorem utf8Step_snd_length (b : Nat) (rest : List Nat) :
    (utf8Step b rest).2.length ≤ rest.length := by
  unfold utf8Step
  repeat' split
  all_goals simp_all
  all_goals omega

/-- Fuelled decoding loop: one `utf8Step` per iteration.  Each step
consumes at least one byte, so `fuel = l.length` never runs out (the
fuel-exhaustion arm is unreachable then, see `utf8LossyAux_fuel_irrel`). -/
def utf8LossyAux : Nat → List Nat → List Nat
  | _, [] => []
  | 0, _ :: _ => []
  | fuel + 1, b :: rest =>
    (utf8Step b rest).1 :: utf8LossyAux fuel (utf8Step b rest).2

/-- `String::from_utf8_lossy` on a byte list, as code points. -/
def utf8Lossy (l : List Nat) : List Nat := utf8LossyAux l.length l

theorem utf8LossyAux_nil (fuel : Nat) : utf8LossyAux fuel [] = [] := by
  cases fuel <;> rfl

theorem utf8LossyAux_fuel_irrel (fuel : Nat) :
    ∀ fuel2 (l : List Nat), l.length ≤ fuel → l.length ≤ fuel2 →
      utf8LossyAux fuel l = utf8LossyAux fuel2 l := by
  induction fuel with
  | zero =>
    intro fuel2 l h _
    match l with
    | [] => rw [utf8LossyAux_nil, utf8LossyAux_nil]
    | _ :: _ => simp at h
  | succ n ih =>
    intro fuel2 l h h2
    match l, fuel2 with
    | [], f2 => rw [utf8LossyAux_nil, utf8LossyAux_nil]
    | _ :: _, 0 => simp at h2
    | b :: rest, m + 1 =>
      simp only [utf8LossyAux, List.cons.injEq, true_and]
      have hs := utf8Step_snd_length b rest
      simp only [List.length_cons] at h h2
      exact ih m (utf8Step b rest).2 (by omega) (by omega)

theorem utf8Lossy_cons (b : Nat) (rest : List Nat) :
    utf8Lossy (b :: rest) = (utf8Step b rest).1 :: utf8Lossy (utf8Step b rest).2 := by
  have hs := utf8Step_snd_length b rest
  simp only [utf8Lossy, List.length_cons, utf8LossyAux, List.cons.injEq, true_and]
  exact utf8LossyAux_fuel_irrel rest.length (utf8Step b rest).2.length
    (utf8Step b rest).2 hs le_rfl

theorem utf8LossyAux_length_le (fuel : Nat) :
    ∀ l : List Nat, (utf8LossyAux fuel l).length ≤ l.length := by
  induction fuel with
  | zero => intro l; match l with
    | [] => simp [utf8LossyAux]
    | _ :: _ => simp [utf8LossyAux]
  | succ n ih =>
    intro l
    match l with
    | [] => simp [utf8LossyAux]
    | b :: rest =>
      have h1 := utf8Step_snd_length b rest
      have h2 := ih (utf8Step b rest).2
      simp only [utf8LossyAux, List.length_cons]
      omega

theorem utf8Lossy_length_le (l : List Nat) : (utf8Lossy l).length ≤ l.length :=
  utf8LossyAux_length_le l.length l

/-! ## Session state, events and errors -/

/-- Observable side effects of one session, in order of occurrence.
`wrMethodSel` is the `write_all(&[5u8, 0u8])` of line 89; `wrReply` is
the `write_all(&[5u8, 0u8, 0u8, 1u8, ...])` of line 152; `connectTo` is
the `TcpStream::connect` of line 183 (host as code points, port);
`bindUdp` is the `UdpSocket::bind("0.0.0.0:0")` of line 189;
`relayBytes` is the start of the two `tokio::io::copy` tasks
(lines 154-164). -/
inductive Ev where
  | wrMethodSel (bs : List Nat)
  | wrReply (bs : List Nat)
  | connectTo (host : List Nat) (port : Nat)
  | bindUdp
  | relayBytes
deriving DecidableEq, Repr

/-- Cause of an outbound `TcpStream::connect` failure, as classified by
the operating system. -/
inductive ConnFail where
  | refused
  | unreachable
  | otherFail
deriving DecidableEq, Repr

/-- Result of the session's single outbound TCP connect attempt; an
external parameter of the session (the peer decides it). -/
inductive ConnectOutcome where
  | established
  | failed (e : ConnFail)
deriving DecidableEq, Repr

/-- Errors returned by the connection handler.  Each constructor stands
for one `Error::new(ErrorKind::InvalidInput, ...)` site of the source
(the source formats a message string; we keep the offending value):
`invalidVersion` lines 82/93, `invalidMethodsLength` line 87,
`invalidDstAddrLen` line 116, `invalidAtyp` line 137, `unimplementedCmd`
line 171, `invalidCmd` line 175.  `eof` is the `UnexpectedEof` error of
a `read_u8`/`read_u16` on an exhausted stream, and `connectFailed` the
propagated outbound connect error (line 151 via `?`). -/
inductive SockErr where
  | eof
  | invalidVersion (v : Nat)
  | invalidMethodsLength (l : Nat)
  | invalidDstAddrLen (l : Nat)
  | invalidAtyp (a : Nat)
  | invalidCmd (c : Nat)
  | unimplementedCmd (c : Nat)
  | connectFailed (e : ConnFail)
deriving DecidableEq, Repr

/-- `struct Address` (lines 31-35): `addr` is the `String` field as a
list of code points, `port` and `atyp` as in the source. -/
structure Address where
  addr : List Nat
  port : Nat
  atyp : Nat
deriving DecidableEq, Repr

/-- State threaded through the connection handler: the unread client
bytes, the delivery schedule (how many bytes the OS hands over at each
`read` call; an empty schedule means every `read` delivers as much as
requested and available), the 256-byte scratch `reader_buffer` of
line 78, and the trace of observable events so far. -/
structure St where
  input : List Nat
  sched : List Nat
  buffer : List Nat
  trace : List Ev
deriving DecidableEq, Repr

/-- Initial state of a session: fresh zeroed scratch buffer
(`[0u8; READER_BUFFER_LEN]`, line 78), empty trace. -/
def initSt (input sched : List Nat) : St :=
  { input := input, sched := sched,
    buffer := List.replicate READER_BUFFER_LEN 0, trace := [] }

/-- Append one observable event. -/
def emit (e : Ev) (s : St) : St := { s with trace := s.trace ++ [e] }

/-- Events of a finished session, whether it succeeded or failed. -/
def sessionTrace (r : Except (SockErr × St) St) : List Ev :=
  match r with
  | .ok s => s.trace
  | .error (_, s) => s.trace

/-- Final outcome of a session, with the state stripped. -/
def sessionOutcome (r : Except (SockErr × St) St) : Except SockErr Unit :=
  match r with
  | .ok _ => .ok ()
  | .error (e, _) => .error e

/-! ## Read primitives

`read_u8`/`read_u16` (tokio `AsyncReadExt`) read exactly their fixed
count or fail with `UnexpectedEof`.  `read(&mut buf[..n])` delivers
between 1 and `n` bytes when data is available (a short read), `0` at
end of stream or for an empty slice, and stores them at the front of
the slice, leaving the rest of the scratch buffer untouched. -/

/-- `client_reader.read_u8()`. -/
def readU8 (s : St) : Except (SockErr × St) (Nat × St) :=
  match s.input with
  | [] => .error (.eof, s)
  | b :: rest => .ok (b, { s with input := rest })

/-- `client_reader.read_u16()`: big-endian, two `read_u8`. -/
def readU16 (s : St) : Except (SockErr × St) (Nat × St) :=
  match readU8 s with
  | .error e => .error e
  | .ok (hi, s1) =>
    match readU8 s1 with
    | .error e => .error e
    | .ok (lo, s2) => .ok (hi * 256 + lo, s2)

/-- `client_reader.read(&mut reader_buffer[..n])`: delivers
`min n (min (max k 1) s.input.length)` bytes where `k` is the head of
the delivery schedule (everything requested if the schedule is empty),
writes them to the front of the scratch buffer and returns the count. -/
def readBuf (n : Nat) (s : St) : Nat × St :=
  let k := match s.sched with | [] => n | j :: _ => j
  let delivered := min n (min (max k 1) s.input.length)
  (delivered,
    { s with input := s.input.drop delivered,
             sched := s.sched.tail,
             buffer := s.input.take delivered ++ s.buffer.drop delivered })

/-! ## The connection handler -/

/-- The `ATYP_DOMAIN_NAME` read loop of lines 118-130: repeatedly
`read` into the scratch buffer and push the lossy decoding of the
requested slice (note: of the whole requested slice, regardless of how
many bytes the `read` actually delivered — the returned count is
discarded with `let _ =`). -/
def domainLoopAux : Nat → Nat → List Nat → St → List Nat × St
  | _, 0, acc, s => (acc, s)
  | 0, _ + 1, acc, s => (acc, s)
  | fuel + 1, count + 1, acc, s =>
    if READER_BUFFER_LEN < count + 1 then
      let r := readBuf READER_BUFFER_LEN s
      domainLoopAux fuel (count + 1 - READER_BUFFER_LEN)
        (acc ++ utf8Lossy (r.2.buffer.take READER_BUFFER_LEN)) r.2
    else
      let r := readBuf (count + 1) s
      (acc ++ utf8Lossy (r.2.buffer.take (count + 1)), r.2)

/-- Entry point of the loop.  `fuel = count` always suffices: every
iteration removes `READER_BUFFER_LEN = 256` from a positive `count`
while spending one unit of fuel, so the fuel-exhaustion arm of
`domainLoopAux` is unreachable. -/
def domainLoop (count : Nat) (acc : List Nat) (s : St) : List Nat × St :=
  domainLoopAux count count acc s

/-- The `ATYP_DOMAIN_NAME` branch of `handle_connection_addr`
(lines 113-131): read the length byte, reject lengths above 8192, then
run the read loop. -/
def readDomain (s : St) : Except (SockErr × St) (List Nat × St) :=
  match readU8 s with
  | .error e => .error e
  | .ok (len, s1) =>
    if 8192 < len then .error (.invalidDstAddrLen len, s1)
    else .ok (domainLoop len [] s1)

/-- Lines 140-145: read the big-endian port and assemble the `Address`. -/
def readPort (atyp : Nat) (dst : List Nat) (s : St) :
    Except (SockErr × St) (Address × St) :=
  match readU16 s with
  | .error e => .error e
  | .ok (port, s1) => .ok ({ addr := dst, port := port, atyp := atyp }, s1)

/-- `handle_connection_addr` (lines 105-146): read the address type and
decode the address.  IPv4 and IPv6 read 4 resp. 16 raw bytes into the
scratch buffer and lossy-decode that slice as text. -/
def handle_connection_addr (s : St) : Except (SockErr × St) (Address × St) :=
  match readU8 s with
  | .error e => .error e
  | .ok (atyp, s1) =>
    if atyp = ATYP_IPV4 then
      let r := readBuf 4 s1
      readPort atyp (utf8Lossy (r.2.buffer.take 4)) r.2
    else if atyp = ATYP_DOMAIN_NAME then
      match readDomain s1 with
      | .error e => .error e
      | .ok (dst, s2) => readPort atyp dst s2
    else if atyp = ATYP_IPV6 then
      let r := readBuf 16 s1
      readPort atyp (utf8Lossy (r.2.buffer.take 16)) r.2
    else .error (.invalidAtyp atyp, s1)

/-- `handle_connect_tcp` (lines 182-186): attempt the outbound TCP
connection to the decoded address; the outcome is the external
parameter `cres`. -/
def handle_connect_tcp (cres : ConnectOutcome) (a : Address) (s : St) :
    Except (SockErr × St) St :=
  let s1 := emit (.connectTo a.addr a.port) s
  match cres with
  | .established => .ok s1
  | .failed e => .error (.connectFailed e, s1)

/-- `handle_connect_udp` (lines 188-191): bind a wildcard/ephemeral
local UDP socket (`"0.0.0.0:0"`); the destination address is unused. -/
def handle_connect_udp (s : St) : Except (SockErr × St) St :=
  .ok (emit .bindUdp s)

/-- `handle_connection_down` (lines 148-180): dispatch on the command
byte.  CONNECT: outbound connect, then the fixed ten-byte success
reply, then the two relay tasks.  ASSOCIATE: bind the UDP socket, then
return the `unimplemented cmd value` error.  Anything else: the
`invalid cmd value` error. -/
def handle_connection_down (cres : ConnectOutcome) (cmd : Nat) (a : Address)
    (s : St) : Except (SockErr × St) St :=
  if cmd = CMD_CONNECT then
    match handle_connect_tcp cres a s with
    | .error e => .error e
    | .ok s1 =>
      let s2 := emit (.wrReply [5, 0, 0, 1, 0, 0, 0, 0, 0, 0]) s1
      .ok (emit .relayBytes s2)
  else if cmd = CMD_ASSOCIATE then
    match handle_connect_udp s with
    | .error e => .error e
    | .ok s1 => .error (.unimplementedCmd cmd, s1)
  else .error (.invalidCmd cmd, s)

/-- Lines 80-89 of `handle_connection`: version byte, method count, one
`read` of the method list (with the delivered count checked against the
declared count), then the `05 00` method-selection reply — written
unconditionally, whatever methods were offered. -/
def handleGreeting (s : St) : Except (SockErr × St) St :=
  match readU8 s with
  | .error e => .error e
  | .ok (ver, s1) =>
    if ver ≠ VERSION then .error (.invalidVersion ver, s1)
    else match readU8 s1 with
    | .error e => .error e
    | .ok (nMethod, s2) =>
      let r := readBuf nMethod s2
      if nMethod ≠ r.1 then .error (.invalidMethodsLength r.1, r.2)
      else .ok (emit (.wrMethodSel [5, 0]) r.2)

/-- Lines 91-100 of `handle_connection`: request version byte, command
byte, reserved byte (read and discarded, line 96), address decode, then
dispatch. -/
def handleRequest (cres : ConnectOutcome) (s : St) : Except (SockErr × St) St :=
  match readU8 s with
  | .error e => .error e
  | .ok (ver, s1) =>
    if ver ≠ VERSION then .error (.invalidVersion ver, s1)
    else match readU8 s1 with
    | .error e => .error e
    | .ok (cmd, s2) =>
      match readU8 s2 with
      | .error e => .error e
      | .ok (_, s3) =>
        match handle_connection_addr s3 with
        | .error e => .error e
        | .ok (a, s4) => handle_connection_down cres cmd a s4

/-- `handle_connection` (lines 77-103): greeting phase then request
phase. -/
def handle_connection (cres : ConnectOutcome) (s : St) :
    Except (SockErr × St) St :=
  match handleGreeting s with
  | .error e => .error e
  | .ok s1 => handleRequest cres s1

/-! ## Canonical dotted-decimal form (spec side)

Modelled from the spec, for comparison with what the code produces:
"For IPv4/IPv6 types, the raw octets are formatted as the canonical
textual address (dotted-decimal / colon-hex)" (§4.2), "the resolved
textual address is always `\"a.b.c.d\"`" (§8). -/

/-- Fuelled decimal digit expansion; `fuel = n` always suffices. -/
def natDecimalAux : Nat → Nat → List Nat
  | 0, n => [48 + n % 10]
  | fuel + 1, n =>
    if n < 10 then [48 + n]
    else natDecimalAux fuel (n / 10) ++ [48 + n % 10]

/-- Decimal representation of a number, as digit code points. -/
def natDecimal (n : Nat) : List Nat := natDecimalAux n n

/-- Modelled from the spec: the canonical dotted-decimal text
`"a.b.c.d"` of four octets, as code points (46 is `'.'`). -/
def ipv4Canon (a b c d : Nat) : List Nat :=
  natDecimal a ++ [46] ++ natDecimal b ++ [46] ++ natDecimal c ++ [46] ++ natDecimal d

theorem natDecimalAux_length_pos (fuel : Nat) :
    ∀ n, 1 ≤ (natDecimalAux fuel n).length := by
  induction fuel with
  | zero => intro n; simp [natDecimalAux]
  | succ m ih =>
    intro n
    simp only [natDecimalAux]
    split
    · simp
    · simp

theorem ipv4Canon_length (a b c d : Nat) : 7 ≤ (ipv4Canon a b c d).length := by
  have ha := natDecimalAux_length_pos a a
  have hb := natDecimalAux_length_pos b b
  have hc := natDecimalAux_length_pos c c
  have hd := natDecimalAux_length_pos d d
  simp only [ipv4Canon, natDecimal, List.length_append, List.length_cons,
    List.length_nil]
  omega

/-! ## Helper lemmas about the read primitives -/

/-- With an empty schedule and enough buffered input, `read` delivers
everything requested. -/
theorem readBuf_full (n : Nat) (s : St) (hs : s.sched = [])
    (hn : n ≤ s.input.length) :
    readBuf n s = (n, { s with input := s.input.drop n, sched := [],
                               buffer := s.input.take n ++ s.buffer.drop n }) := by
  unfold readBuf
  rw [hs]
  simp only [List.tail_nil]
  have hmin : min n (min (max n 1) s.input.length) = n := by omega
  rw [hmin]

/-- Whatever the schedule, `read` delivers at most `n` bytes and at most
what is buffered, dropping exactly the delivered count from the input. -/
theorem readBuf_any (n : Nat) (s : St) :
    ∃ k, readBuf n s = (k, { s with input := s.input.drop k,
                                    sched := s.sched.tail,
                                    buffer := s.input.take k ++ s.buffer.drop k })
      ∧ k ≤ n ∧ k ≤ s.input.length := by
  unfold readBuf
  exact ⟨_, rfl, by omega, by omega⟩

theorem domainLoop_zero (acc : List Nat) (s : St) : domainLoop 0 acc s = (acc, s) := rfl

/-- For counts of at most one buffer (every reachable count, since the
length field is one byte), the loop is a single `read` of the whole
remaining count. -/
theorem domainLoop_le (count : Nat) (acc : List Nat) (s : St)
    (h : count ≤ READER_BUFFER_LEN) (h0 : count ≠ 0) :
    domainLoop count acc s =
      (acc ++ utf8Lossy ((readBuf count s).2.buffer.take count),
        (readBuf count s).2) := by
  match count, h0 with
  | c + 1, _ =>
    show domainLoopAux (c + 1) (c + 1) acc s = _
    rw [domainLoopAux]
    rw [if_neg (by simp only [READER_BUFFER_LEN] at h ⊢; omega)]

/-- `readDomain` on a length byte `L ≤ 255` with full delivery: exactly
`L` bytes of host text are consumed and lossy-decoded. -/
theorem readDomain_full (L : Nat) (input sched buf : List Nat) (tr : List Ev)
    (hL : L ≤ 255) (hlen : L ≤ input.length) (hs : sched = []) :
    readDomain ⟨L :: input, sched, buf, tr⟩ =
      .ok (utf8Lossy (input.take L),
        ⟨input.drop L, [], input.take L ++ buf.drop L, tr⟩) := by
  subst hs
  unfold readDomain readU8
  simp only
  rw [if_neg (by omega)]
  match L, hL with
  | 0, _ =>
    rw [domainLoop_zero]
    simp [utf8Lossy, utf8LossyAux]
  | l + 1, _ =>
    rw [domainLoop_le (l + 1) [] _ (by simp only [READER_BUFFER_LEN]; omega)
      (by omega)]
    rw [readBuf_full (l + 1) _ rfl (by simpa using hlen)]
    simp only [List.nil_append, Except.ok.injEq, Prod.mk.injEq]
    refine ⟨?_, trivial⟩
    congr 1
    have : (input.take (l + 1)).length = l + 1 := by
      simp [List.length_take]; omega
    rw [List.take_append_eq_append_take, this]
    simp

/-- `readDomain` on a length byte `L ≤ 255`, any schedule: it always
succeeds, decodes at most `L` code points, and consumes at most `L`
bytes beyond the length byte. -/
theorem readDomain_any (L : Nat) (input sched buf : List Nat) (tr : List Ev)
    (hL : L ≤ 255) :
    ∃ d s1 k, readDomain ⟨L :: input, sched, buf, tr⟩ = .ok (d, s1) ∧
      d.length ≤ L ∧ k ≤ L ∧ s1.input = input.drop k ∧ s1.trace = tr := by
  unfold readDomain readU8
  simp only
  rw [if_neg (by omega)]
  match L, hL with
  | 0, _ =>
    exact ⟨[], _, 0, by rw [domainLoop_zero], by simp, by simp, by simp, rfl⟩
  | l + 1, _ =>
    rw [domainLoop_le (l + 1) [] _ (by simp only [READER_BUFFER_LEN]; omega)
      (by omega)]
    obtain ⟨k, hEq, h1, h2⟩ := readBuf_any (l + 1) ⟨input, sched, buf, tr⟩
    rw [hEq]
    refine ⟨_, _, k, rfl, ?_, h1, rfl, rfl⟩
    have hlen := utf8Lossy_length_le
      ((List.take k input ++ List.drop k buf).take (l + 1))
    have hlen2 : ((List.take k input ++ List.drop k buf).take (l + 1)).length
        ≤ l + 1 := by simp [List.length_take]
    simp only [List.nil_append]
    omega

/-- Whether an event is the request Reply write of line 152 (the only
site that writes a SOCKS5 reply header for the request). -/
def isReplyEv : Ev → Bool
  | .wrReply _ => true
  | _ => false

/-- Number of request Replies a finished session wrote to the client. -/
def replyCount (r : Except (SockErr × St) St) : Nat :=
  (sessionTrace r).countP (fun e => isReplyEv e)

/-- Bytes the greeting's single method-list `read` delivers, given the
method count `n`, the delivery schedule and the number of bytes that
follow the method list in the stream. -/
def greetDel (n : Nat) (sched : List Nat) (tlen : Nat) : Nat :=
  min n (min (max (match sched with | [] => n | j :: _ => j) 1) (n + tlen))

/-- Closed form of the greeting phase on a well-formed greeting
`05 n methods` followed by `tail`: if the single `read` delivers all
`n` method bytes the server replies `05 00` and proceeds, otherwise it
fails with the `invalid methods length` error. -/
theorem handleGreeting_closed (n : Nat) (methods tail sched buf : List Nat)
    (tr : List Ev) (hm : methods.length = n) :
    handleGreeting ⟨5 :: n :: (methods ++ tail), sched, buf, tr⟩ =
      if n ≠ greetDel n sched tail.length then
        .error (.invalidMethodsLength (greetDel n sched tail.length),
          ⟨methods.drop (greetDel n sched tail.length) ++ tail, sched.tail,
           methods.take (greetDel n sched tail.length) ++
             buf.drop (greetDel n sched tail.length), tr⟩)
      else .ok ⟨tail, sched.tail, methods ++ buf.drop n, tr ++ [.wrMethodSel [5, 0]]⟩ := by
  have hlen : (methods ++ tail).length = n + tail.length := by simp [hm]
  unfold handleGreeting readU8 readBuf emit greetDel
  simp only [VERSION, hlen]
  rw [if_neg (by omega)]
  cases sched with
  | nil =>
    simp only [List.tail_nil]
    by_cases hc : n = min n (min (max n 1) (n + tail.length))
    · rw [← hc]
      rw [if_neg (by omega), if_neg (by omega)]
      have h1 : List.drop n (methods ++ tail) = tail := by
        rw [← hm, List.drop_left]
      have h2 : List.take n (methods ++ tail) = methods := by
        rw [← hm, List.take_left]
      rw [h1, h2]
    · rw [if_pos hc, if_pos hc]
      have h0 : n ⊓ ((n ⊔ 1) ⊓ (n + tail.length)) - methods.length = 0 := by omega
      rw [List.drop_append_eq_append_drop, List.take_append_eq_append_take, h0]
      simp
  | cons j js =>
    simp only [List.tail_cons]
    by_cases hc : n = min n (min (max j 1) (n + tail.length))
    · rw [← hc]
      rw [if_neg (by omega), if_neg (by omega)]
      have h1 : List.drop n (methods ++ tail) = tail := by
        rw [← hm, List.drop_left]
      have h2 : List.take n (methods ++ tail) = methods := by
        rw [← hm, List.take_left]
      rw [h1, h2]
    · rw [if_pos hc, if_pos hc]
      have h0 : n ⊓ ((j ⊔ 1) ⊓ (n + tail.length)) - methods.length = 0 := by omega
      rw [List.drop_append_eq_append_drop, List.take_append_eq_append_take, h0]
      simp

/-- The request phase reads the reserved byte and discards it: two
streams differing only there have the same observables. -/
theorem handleRequest_rsv (cres : ConnectOutcome) (v c r1 r2 : Nat)
    (rest sched buf : List Nat) (tr : List Ev) :
    sessionTrace (handleRequest cres ⟨v :: c :: r1 :: rest, sched, buf, tr⟩) =
      sessionTrace (handleRequest cres ⟨v :: c :: r2 :: rest, sched, buf, tr⟩) ∧
    sessionOutcome (handleRequest cres ⟨v :: c :: r1 :: rest, sched, buf, tr⟩) =
      sessionOutcome (handleRequest cres ⟨v :: c :: r2 :: rest, sched, buf, tr⟩) := by
  unfold handleRequest readU8
  simp only
  by_cases hv : v = VERSION
  · rw [if_neg (by omega), if_neg (by omega)]
    exact ⟨rfl, rfl⟩
  · rw [if_pos (by omega), if_pos (by omega)]
    exact ⟨rfl, rfl⟩

/-! ## Claims -/

/-- Claim C1: the decoder should produce the canonical dotted-decimal
text of the four IPv4 octets.  It does not: for every four octets
`[a,b,c,d]` the code stores `String::from_utf8_lossy` of the raw bytes
in `Address.addr` (line 111), and that string is never the canonical
`"a.b.c.d"` (it has at most 4 code points, the canonical form at
least 7). -/
theorem ipv4_text_is_lossy_bytes_not_canonical (a b c d p1 p2 : Nat)
    (rest buf : List Nat) (tr : List Ev) :
    ∃ A s1,
      handle_connection_addr ⟨1 :: a :: b :: c :: d :: p1 :: p2 :: rest, [], buf, tr⟩
          = .ok (A, s1)
        ∧ A.addr = utf8Lossy [a, b, c, d]
        ∧ A.port = p1 * 256 + p2
        ∧ A.addr ≠ ipv4Canon a b c d := by
  have hfull := readBuf_full 4 ⟨a :: b :: c :: d :: p1 :: p2 :: rest, [], buf, tr⟩
    rfl (by simp)
  simp only [handle_connection_addr, readU8]
  rw [hfull]
  simp only [readPort, readU16, readU8, ATYP_IPV4, reduceIte]
  refine ⟨_, _, rfl, rfl, rfl, ?_⟩
  show utf8Lossy [a, b, c, d] ≠ ipv4Canon a b c d
  intro h
  have h1 := utf8Lossy_length_le [a, b, c, d]
  have h2 := ipv4Canon_length a b c d
  rw [h] at h1
  simp at h1
  omega

/-- Claim C2: on a refused outbound CONNECT the server should send a
failure Reply with the connection-refused code.  It does not: the
connect error propagates through `?` (line 151), the session ends with
that error, and no Reply at all is written (`replyCount = 0`) — the
trace holds only the method-selection write and the connect attempt. -/
theorem connect_refused_no_failure_reply :
    sessionOutcome (handle_connection (.failed .refused)
        (initSt [5, 1, 0, 5, 1, 0, 3, 3, 97, 98, 99, 0, 80] []))
      = .error (.connectFailed .refused)
    ∧ sessionTrace (handle_connection (.failed .refused)
        (initSt [5, 1, 0, 5, 1, 0, 3, 3, 97, 98, 99, 0, 80] []))
      = [.wrMethodSel [5, 0], .connectTo [97, 98, 99] 80]
    ∧ replyCount (handle_connection (.failed .refused)
        (initSt [5, 1, 0, 5, 1, 0, 3, 3, 97, 98, 99, 0, 80] [])) = 0 :=
  ⟨rfl, rfl, rfl⟩

/-- Claim C3, counterexample: a valid greeting offering only method 2
(no-auth method 0 absent) does not close the connection — the server
still replies `05 00` and the session continues to a successful CONNECT
relay. -/
theorem no_noauth_offer_still_accepted_cex :
    (0 ∉ ([2] : List Nat))
    ∧ sessionOutcome (handle_connection .established
        (initSt [5, 1, 2, 5, 1, 0, 1, 1, 2, 3, 4, 0, 80] [])) = .ok ()
    ∧ sessionTrace (handle_connection .established
        (initSt [5, 1, 2, 5, 1, 0, 1, 1, 2, 3, 4, 0, 80] []))
      = [.wrMethodSel [5, 0], .connectTo [1, 2, 3, 4] 80,
         .wrReply [5, 0, 0, 1, 0, 0, 0, 0, 0, 0], .relayBytes] :=
  ⟨by decide, rfl, rfl⟩

/-- Claim C3, amended: for every valid, fully delivered greeting the
server selects method 0 and replies `05 00`, regardless of whether the
offered method list contains 0; no greeting is rejected. -/
theorem greeting_replies_noauth_unconditionally (n : Nat)
    (methods rest buf : List Nat) (tr : List Ev) (hm : methods.length = n) :
    handleGreeting ⟨5 :: n :: (methods ++ rest), [], buf, tr⟩ =
      .ok ⟨rest, [], methods ++ buf.drop n, tr ++ [.wrMethodSel [5, 0]]⟩ := by
  rw [handleGreeting_closed n methods rest [] buf tr hm]
  rw [if_neg (by simp only [greetDel]; omega)]
  rfl

/-- Witness for the amended C3 at the greeting `05 01 02`. -/
theorem greeting_replies_noauth_unconditionally_inst :
    handleGreeting ⟨5 :: 1 :: ([2] ++ [9, 9]), [], List.replicate 256 0, []⟩ =
      .ok ⟨[9, 9], [], [2] ++ (List.replicate 256 0).drop 1,
           [] ++ [.wrMethodSel [5, 0]]⟩ :=
  greeting_replies_noauth_unconditionally 1 [2] [9, 9] (List.replicate 256 0) [] rfl

/-- Claim C4: an ASSOCIATE request should get a Reply carrying the bound
UDP socket's address and then a datagram relay.  The code only binds the
socket (`handle_connect_udp`, line 169) and then returns the
`unimplemented cmd value` error (line 171): no Reply, no relay. -/
theorem associate_binds_udp_then_errors (cres : ConnectOutcome) (a : Address)
    (s : St) :
    handle_connection_down cres CMD_ASSOCIATE a s =
      .error (.unimplementedCmd CMD_ASSOCIATE, emit .bindUdp s) :=
  rfl

/-- Claim C5: a length-prefixed field should be read in full or fail
with a framing error.  The domain branch violates this: with declared
domain length 4 and host `"abcd"`, a short read delivering only 2 bytes
(schedule `[1, 2]`) is not detected — the count returned by `read` is
discarded (line 126) — so the decoded host keeps two stale zero bytes
from the scratch buffer (`[97, 98, 0, 0]`), the two undelivered host
bytes are then consumed as the port (`99*256+100 = 25444`), and the
session proceeds with no error. -/
theorem domain_short_read_uses_stale_buffer :
    sessionOutcome (handle_connection .established
        (initSt [5, 1, 0, 5, 1, 0, 3, 4, 97, 98, 99, 100, 0, 80] [1, 2]))
      = .ok ()
    ∧ sessionTrace (handle_connection .established
        (initSt [5, 1, 0, 5, 1, 0, 3, 4, 97, 98, 99, 100, 0, 80] [1, 2]))
      = [.wrMethodSel [5, 0], .connectTo [97, 98, 0, 0] 25444,
         .wrReply [5, 0, 0, 1, 0, 0, 0, 0, 0, 0], .relayBytes] :=
  ⟨rfl, rfl⟩

/-- Claim C6: for every domain length `L ≤ 255`, the domain decoder
consumes exactly `L + 1` bytes (length byte plus `L` bytes of host
text) under full delivery, and never consumes more than `L + 1` bytes
under any delivery schedule, however many further bytes are buffered. -/
theorem domain_consumes_exactly_len_plus_one (L : Nat) (host rest buf : List Nat)
    (tr : List Ev) (hL : L ≤ 255) (hh : host.length = L) :
    (∃ d s1, readDomain ⟨L :: (host ++ rest), [], buf, tr⟩ = .ok (d, s1)
        ∧ s1.input = rest)
    ∧ ∀ input sched buf2 tr2, ∃ d s1 k,
        readDomain ⟨L :: input, sched, buf2, tr2⟩ = .ok (d, s1)
          ∧ k ≤ L ∧ s1.input = input.drop k := by
  constructor
  · refine ⟨_, _, readDomain_full L (host ++ rest) [] buf tr hL
      (by simp only [List.length_append, hh]; omega) rfl, ?_⟩
    simp only
    rw [← hh, List.drop_left]
  · intro input sched buf2 tr2
    obtain ⟨d, s1, k, hEq, _, hk, hInp, _⟩ := readDomain_any L input sched buf2 tr2 hL
    exact ⟨d, s1, k, hEq, hk, hInp⟩

/-- Witness for C6 at domain length 3, host `"abc"`, port bytes following. -/
theorem domain_consumes_exactly_len_plus_one_inst :
    (∃ d s1, readDomain ⟨3 :: ([97, 98, 99] ++ [0, 80]), [],
        List.replicate 256 0, []⟩ = .ok (d, s1) ∧ s1.input = [0, 80])
    ∧ ∀ input sched buf2 tr2, ∃ d s1 k,
        readDomain ⟨3 :: input, sched, buf2, tr2⟩ = .ok (d, s1)
          ∧ k ≤ 3 ∧ s1.input = input.drop k :=
  domain_consumes_exactly_len_plus_one 3 [97, 98, 99] [0, 80]
    (List.replicate 256 0) [] (by omega) rfl

/-- Claim C7: at most one Reply is ever written, and on CONNECT success
exactly one — the fixed ten bytes `05 00 00 01 00 00 00 00 00 00`,
written before relaying starts.  But on failure no Reply is written at
all (`replyCount = 0`), not a failure Reply in place of the relay as
the claim requires. -/
theorem reply_once_on_success_none_on_failure :
    replyCount (handle_connection .established
        (initSt [5, 1, 0, 5, 1, 0, 1, 1, 2, 3, 4, 0, 80] [])) = 1
    ∧ sessionTrace (handle_connection .established
        (initSt [5, 1, 0, 5, 1, 0, 1, 1, 2, 3, 4, 0, 80] []))
      = [.wrMethodSel [5, 0], .connectTo [1, 2, 3, 4] 80,
         .wrReply [5, 0, 0, 1, 0, 0, 0, 0, 0, 0], .relayBytes]
    ∧ replyCount (handle_connection (.failed .otherFail)
        (initSt [5, 1, 0, 5, 1, 0, 1, 1, 2, 3, 4, 0, 80] [])) = 0
    ∧ sessionOutcome (handle_connection (.failed .otherFail)
        (initSt [5, 1, 0, 5, 1, 0, 1, 1, 2, 3, 4, 0, 80] []))
      = .error (.connectFailed .otherFail) :=
  ⟨rfl, rfl, rfl, rfl⟩

/-- Claim C8, counterexample: a request with the unsupported command
byte 2 (BIND) gets no Reply of any kind — the session just ends with
the `invalid cmd value` error after the method-selection write. -/
theorem bind_cmd_gets_no_reply_cex :
    sessionTrace (handle_connection .established
        (initSt [5, 1, 0, 5, 2, 0, 1, 1, 2, 3, 4, 0, 80] []))
      = [.wrMethodSel [5, 0]]
    ∧ replyCount (handle_connection .established
        (initSt [5, 1, 0, 5, 2, 0, 1, 1, 2, 3, 4, 0, 80] [])) = 0
    ∧ sessionOutcome (handle_connection .established
        (initSt [5, 1, 0, 5, 2, 0, 1, 1, 2, 3, 4, 0, 80] []))
      = .error (.invalidCmd 2) :=
  ⟨rfl, rfl, rfl⟩

/-- Claim C8, amended: for every command byte that is neither CONNECT
(1) nor ASSOCIATE (3), the server closes the session with the
`invalid cmd value` error and sends no Reply (the state, including the
trace, is returned unchanged). -/
theorem unsupported_cmd_errors_without_reply (cres : ConnectOutcome)
    (cmd : Nat) (a : Address) (s : St) (h1 : cmd ≠ CMD_CONNECT)
    (h3 : cmd ≠ CMD_ASSOCIATE) :
    handle_connection_down cres cmd a s = .error (.invalidCmd cmd, s) := by
  unfold handle_connection_down
  rw [if_neg h1, if_neg h3]

/-- Witness for the amended C8 at command byte 2 (BIND). -/
theorem unsupported_cmd_errors_without_reply_inst :
    handle_connection_down .established 2 ⟨[97], 80, 3⟩ (initSt [] []) =
      .error (.invalidCmd 2, initSt [] []) :=
  unsupported_cmd_errors_without_reply .established 2 ⟨[97], 80, 3⟩
    (initSt [] []) (by decide) (by decide)

/-- Claim C9: the one-byte length field structurally bounds the domain
decode: for every length byte `L < 256` and every input and schedule
the decoder succeeds (the `> 8192` rejection branch of line 115 is
never taken) and the decoded host text has at most 255 code points. -/
theorem domain_len_byte_caps_at_255 (L : Nat) (input sched buf : List Nat)
    (tr : List Ev) (hL : L < 256) :
    ∃ d s1, readDomain ⟨L :: input, sched, buf, tr⟩ = .ok (d, s1)
      ∧ d.length ≤ 255 := by
  obtain ⟨d, s1, k, hEq, hdl, _, _, _⟩ := readDomain_any L input sched buf tr
    (by omega)
  exact ⟨d, s1, hEq, by omega⟩

/-- Witness for C9 at the maximal length byte 255 on an empty stream. -/
theorem domain_len_byte_caps_at_255_inst :
    ∃ d s1, readDomain ⟨255 :: [], [], [], []⟩ = .ok (d, s1)
      ∧ d.length ≤ 255 :=
  domain_len_byte_caps_at_255 255 [] [] [] [] (by omega)

/-- Claim C10: two client byte streams that differ only in the request
header's reserved byte produce identical observable behaviour: the same
event trace (method-selection write, connect attempt with the same
parsed address, Replies) and the same session outcome. -/
theorem rsv_byte_has_no_effect (cres : ConnectOutcome) (n : Nat)
    (methods : List Nat) (v c r1 r2 : Nat) (rest sched buf : List Nat)
    (hm : methods.length = n) :
    sessionTrace (handle_connection cres
        ⟨5 :: n :: (methods ++ v :: c :: r1 :: rest), sched, buf, []⟩)
      = sessionTrace (handle_connection cres
        ⟨5 :: n :: (methods ++ v :: c :: r2 :: rest), sched, buf, []⟩)
    ∧ sessionOutcome (handle_connection cres
        ⟨5 :: n :: (methods ++ v :: c :: r1 :: rest), sched, buf, []⟩)
      = sessionOutcome (handle_connection cres
        ⟨5 :: n :: (methods ++ v :: c :: r2 :: rest), sched, buf, []⟩) := by
  unfold handle_connection
  rw [handleGreeting_closed n methods (v :: c :: r1 :: rest) sched buf [] hm,
      handleGreeting_closed n methods (v :: c :: r2 :: rest) sched buf [] hm]
  simp only [List.length_cons]
  by_cases hc : n = greetDel n sched (rest.length + 1 + 1 + 1)
  · rw [if_neg (by omega), if_neg (by omega)]
    exact handleRequest_rsv cres v c r1 r2 rest sched.tail
      (methods ++ buf.drop n) ([] ++ [.wrMethodSel [5, 0]])
  · rw [if_pos (by omega), if_pos (by omega)]
    exact ⟨rfl, rfl⟩

/-- Witness for C10: reserved byte 0 versus 255 around an otherwise
identical CONNECT request. -/
theorem rsv_byte_has_no_effect_inst :
    sessionTrace (handle_connection .established
        ⟨5 :: 1 :: ([0] ++ 5 :: 1 :: 0 :: [1, 1, 2, 3, 4, 0, 80]), [],
         List.replicate 256 0, []⟩)
      = sessionTrace (handle_connection .established
        ⟨5 :: 1 :: ([0] ++ 5 :: 1 :: 255 :: [1, 1, 2, 3, 4, 0, 80]), [],
         List.replicate 256 0, []⟩)
    ∧ sessionOutcome (handle_connection .established
        ⟨5 :: 1 :: ([0] ++ 5 :: 1 :: 0 :: [1, 1, 2, 3, 4, 0, 80]), [],
         List.replicate 256 0, []⟩)
      = sessionOutcome (handle_connection .established
        ⟨5 :: 1 :: ([0] ++ 5 :: 1 :: 255 :: [1, 1, 2, 3, 4, 0, 80]), [],
         List.replicate 256 0, []⟩) :=
  rsv_byte_has_no_effect .established 1 [0] 5 1 0 255 [1, 1, 2, 3, 4, 0, 80]
    [] (List.replicate 256 0) rfl

end SocksRs
